import Mathlib

/-!
# Verification of the GTFS alerts translation lambda

Shallow embedding of `gtfs_translation` (the MBTA GTFS-Realtime alerts
translation lambda) and proofs about its translation orchestration core.

The embedding covers:

* `src/gtfs_translation/core/smartling.py` — the `SmartlingTranslator`
  (MT-router strategy): token cache (`_get_token`), the per-language
  translation call (`_do_translate_batch`) and the single-retry-on-401
  wrapper (`translate_batch`).
* `src/gtfs_translation/lambda_handler.py` — `should_upload` and
  `run_translation` (configuration checks, reference-destination selection,
  publish loop).

Network I/O is modelled by an oracle environment (`Env` / `RunEnv`): each
HTTP call consumes the response the oracle supplies for that call index.
Mutable object state (`self._token`, call counters, the sequence of request
payloads sent) is threaded explicitly through a state record `St`.
Side effects of `run_translation` (fetches and `s3.put_object` publishes)
are reported as an explicit event list.

Parts of the repository that are referenced but not present in the source
tree (the `FeedProcessor` orchestrator in `processor.py`, and the
`SmartlingJobBatchesTranslator` job/batch upload) are modelled from the
specification text; their doc comments start with "Modelled from the spec".
-/

/-- A Python exception escaping an HTTP call: either an
`httpx.HTTPStatusError` carrying the response status code (raised by
`raise_for_status`), or any other exception. -/
inductive PyErr where
  | http (status : Nat)
  | other (msg : String)
deriving DecidableEq, Repr

/-- The data of a successful Smartling authentication response:
`response.data.accessToken` and `response.data.expiresIn` (seconds). -/
structure AuthData where
  accessToken : String
  expiresIn : Int
deriving DecidableEq, Repr

/-- One item of a successful MT-router translation response.  In the wire
format the key is a stringified integer; the code immediately interprets it
with `int(x["key"])`, so the key is modelled as the parsed number. -/
structure Item where
  key : Nat
  translationText : String
deriving DecidableEq, Repr

/-- Oracle for the remote provider: the response to the `i`-th
authentication POST and the `i`-th translation POST made by this
translator instance (counting from 0). -/
structure Env where
  authResp : Nat → Except PyErr AuthData
  transResp : Nat → Except PyErr (List Item)

/-- Mutable state of a `SmartlingTranslator` instance, plus observation
counters for the network calls it performs and a log of the item payloads
it sent to the MT-router endpoint. -/
structure St where
  token : Option String
  tokenExpiry : Int
  authCalls : Nat
  transCalls : Nat
  requests : List (List (String × String))
deriving DecidableEq, Repr

/-- A fresh translator state: no cached token, no calls made. -/
def St.init : St := ⟨none, 0, 0, 0, []⟩

/-- The authentication POST + token store of `_get_token` (the branch taken
when no valid cached token exists): performs one authentication call,
stores the token with expiry `now + expiresIn - 60` on success. -/
def fetchToken (env : Env) (now : Int) (s : St) : Except PyErr String × St :=
  match env.authResp s.authCalls with
  | .error e => (.error e, { s with authCalls := s.authCalls + 1 })
  | .ok d =>
      (.ok d.accessToken,
        { s with token := some d.accessToken,
                 tokenExpiry := now + d.expiresIn - 60,
                 authCalls := s.authCalls + 1 })

/-- `SmartlingTranslator._get_token`: returns the cached token while it is
truthy (non-empty) and `now < self._token_expiry`; otherwise authenticates
afresh.  `now` is the value of `time.time()` at the call. -/
def get_token (env : Env) (now : Int) (s : St) : Except PyErr String × St :=
  match s.token with
  | some t => if t ≠ "" ∧ now < s.tokenExpiry then (.ok t, s) else fetchToken env now s
  | none => fetchToken env now s

/-- The `items` array of the MT-router request payload:
`[{"key": str(i), "sourceText": text} for i, text in enumerate(texts)]`. -/
def mtItems (texts : List String) : List (String × String) :=
  texts.enum.map fun p => (toString p.1, p.2)

/-- `sorted(items, key=lambda x: int(x["key"]))`: Python's `sorted` is a
stable comparison sort; it is modelled as a stable insertion sort on the
parsed numeric key. -/
def sortItems (items : List Item) : List Item :=
  items.insertionSort fun a b => a.key ≤ b.key

/-- `SmartlingTranslator._do_translate_batch`: fetch a token, POST the
index-keyed payload, raise on HTTP error, then sort the response items by
numeric key and return their `translationText` values in that order. -/
def do_translate_batch (env : Env) (now : Int) (s : St) (texts : List String)
    (_target_lang : String) : Except PyErr (List String) × St :=
  match get_token env now s with
  | (.error e, s₁) => (.error e, s₁)
  | (.ok _tok, s₁) =>
      let s₂ : St := { s₁ with transCalls := s₁.transCalls + 1,
                               requests := s₁.requests ++ [mtItems texts] }
      match env.transResp s₁.transCalls with
      | .error e => (.error e, s₂)
      | .ok items => (.ok ((sortItems items).map Item.translationText), s₂)

/-- `SmartlingTranslator.translate_batch`: empty input short-circuits to an
empty result; otherwise one `_do_translate_batch` attempt, retried exactly
once with the cached token cleared if the attempt raised an HTTP 401. -/
def translate_batch (env : Env) (now : Int) (s : St) (texts : List String)
    (target_lang : String) : Except PyErr (List String) × St :=
  if texts.isEmpty then (.ok [], s)
  else
    match do_translate_batch env now s texts target_lang with
    | (.ok r, s₁) => (.ok r, s₁)
    | (.error e, s₁) =>
        if e = .http 401 then
          do_translate_batch env now { s₁ with token := none } texts target_lang
        else (.error e, s₁)

/-- Modelled from the spec: the orchestrator-facing multi-language result
(`FeedProcessor` in `processor.py` is not under `src/`).  Per §4.2/§3 of the
spec, `translateBatch` targets a set of languages and yields a mapping from
language code to translated strings; a language whose translation call
fails is entirely absent from the mapping.  Each per-language call is the
`SmartlingTranslator.translate_batch` embedded above from the source. -/
def translateBatchAll (env : Env) (now : Int) (texts : List String) :
    List String → St → List (String × List String) × St
  | [], s => ([], s)
  | lang :: rest, s =>
      match translate_batch env now s texts lang with
      | (.ok r, s₁) =>
          ((lang, r) :: (translateBatchAll env now texts rest s₁).1,
           (translateBatchAll env now texts rest s₁).2)
      | (.error _, s₁) => translateBatchAll env now texts rest s₁

/-! ## Lambda handler (`src/gtfs_translation/lambda_handler.py`) -/

/-- A feed wire format (`FeedFormat` in the source: `"json" | "pb"`). -/
inductive FeedFormat where
  | json
  | pb
deriving DecidableEq, Repr

/-- The feed as the core sees it (the codec is an excluded collaborator):
a header timestamp, the source-language texts, and the localized variants
`(language, text)` attached alongside them. -/
structure Feed where
  headerTimestamp : Nat
  texts : List String
  translations : List (String × String)
deriving DecidableEq, Repr

/-- `ProcessingMetrics` as used by the publish decision. -/
structure ProcessingMetrics where
  strings_translated : Nat
  strings_reused : Nat
  errors : Nat
deriving DecidableEq, Repr

/-- Outcome of the translation phase inside `FeedProcessor.process_feed`:
it completes with a list of newly translated `(language, text)` variants,
or it raises an error, or it exceeds the wall-clock timeout. -/
inductive PhaseOutcome where
  | completed (newTranslations : List (String × String))
  | raised
  | timedOut
deriving DecidableEq, Repr

/-- Modelled from the spec: `FeedProcessor.process_feed` (`processor.py` is
not under `src/`).  Per §4.5/§7 of the spec, any error or timeout in the
translation phase is absorbed (degradation policy): the feed keeps its
original source-language text and metrics report the failure; it never
raises.  On completion the new localized variants are merged into the feed
and counted as `strings_translated`. -/
def process_feed (feed : Feed) (phase : PhaseOutcome) : Feed × ProcessingMetrics :=
  match phase with
  | .completed tr =>
      ({ feed with translations := feed.translations ++ tr },
       ⟨tr.length, 0, 0⟩)
  | .raised => (feed, ⟨0, 0, 1⟩)
  | .timedOut => (feed, ⟨0, 0, 1⟩)

/-- `FeedProcessor.serialize` (excluded codec): bytes are modelled opaquely
as the serialized feed paired with its format. -/
def serialize (f : Feed) (fmt : FeedFormat) : Feed × FeedFormat := (f, fmt)

/-- `should_upload` from `lambda_handler.py`. -/
def should_upload (old_feed : Option Feed) (new_feed : Feed)
    (metrics : Option ProcessingMetrics) : Bool :=
  match old_feed with
  | none => true
  | some old =>
      if old.headerTimestamp ≠ new_feed.headerTimestamp then true
      else
        match metrics with
        | none => true
        | some m => m.strings_translated > 0

/-- The reference-destination selection loop of `run_translation`:
`ref = dest_urls[0]; for d in dest_urls: if d.endswith(".json"): ref = d; break`. -/
def refDest (default : String) : List String → String
  | [] => default
  | d :: ds => if d.endsWith ".json" then d else refDest default ds

/-- `"json" if url.endswith(".json") else "pb"`. -/
def fmtOf (url : String) : FeedFormat :=
  if url.endsWith ".json" then .json else .pb

/-- An observable side effect of `run_translation`: fetching the source
feed, fetching the previous feed from the reference destination, or
publishing serialized bytes to a destination (`s3.put_object`). -/
inductive Event where
  | fetchSource (url : String)
  | fetchOld (url : String) (fmt : FeedFormat)
  | putObject (url : String) (body : Feed × FeedFormat)
deriving DecidableEq, Repr

/-- Oracle for `run_translation`'s collaborators: the parsed source feed
(`fetch_source` + `FeedProcessor.parse`), the previous feed returned by
`fetch_old_feed` for the reference destination, and the outcome of the
translation phase. -/
structure RunEnv where
  sourceFeed : Feed
  oldFeed : Option Feed
  phase : PhaseOutcome

/-- `run_translation`: configuration checks, fetch, reference-destination
selection, translation phase, publish decision, and one `s3.put_object`
per destination URL.  Returns the run's result (a `ValueError` message on
a configuration error) together with the list of side effects. -/
def run_translation (env : RunEnv) (source_url : String) (dest_urls : List String) :
    Except String Unit × List Event :=
  match dest_urls with
  | [] => (.error "No destination URLs provided", [])
  | d0 :: rest =>
      if source_url ∈ d0 :: rest then
        (.error ("Source URL matches one of the destinations: " ++ source_url), [])
      else
        let new_feed := env.sourceFeed
        let ref := refDest d0 (d0 :: rest)
        let old := env.oldFeed
        let processed := process_feed new_feed env.phase
        let ev₀ := [Event.fetchSource source_url, Event.fetchOld ref (fmtOf ref)]
        if should_upload old processed.1 (some processed.2) then
          (.ok (), ev₀ ++ (d0 :: rest).map fun d =>
            .putObject d (serialize processed.1 (fmtOf d)))
        else
          (.ok (), ev₀)

/-- The publish side effects among a run's events. -/
def putEvents (evs : List Event) : List Event :=
  evs.filter fun e =>
    match e with
    | .putObject _ _ => true
    | _ => false

/-- Modelled from the spec: the multipart form fields sent by
`SmartlingJobBatchesTranslator._upload_file_to_batch` (the class is not
under `src/`; only its integration tests are).  Per §4.2 Variant B / §6 of
the spec, the upload sends the source file of all texts together with the
field `localeIdsToAuthorize[]` holding the full target-locale list as one
single comma-joined value, never one field instance per locale.  The
multipart form is modelled as an ordered list of (field name, value). -/
def uploadFileToBatchFields (texts : List String) (target_langs : List String) :
    List (String × String) :=
  [("file", String.intercalate "\n" texts),
   ("fileUri", "gtfs-alerts.json"),
   ("fileType", "json"),
   ("localeIdsToAuthorize[]", String.intercalate "," target_langs)]

/-! ## Helper lemmas -/

/-- The translation phase never touches the header timestamp. -/
theorem process_feed_headerTimestamp (f : Feed) (ph : PhaseOutcome) :
    (process_feed f ph).1.headerTimestamp = f.headerTimestamp := by
  cases ph <;> rfl

theorem process_feed_raised_fst (f : Feed) : (process_feed f .raised).1 = f := rfl

theorem process_feed_timedOut_fst (f : Feed) : (process_feed f .timedOut).1 = f := rfl

theorem putEvents_append (a b : List Event) :
    putEvents (a ++ b) = putEvents a ++ putEvents b := by
  simp [putEvents, List.filter_append]

/-- A publish loop consists only of publish events. -/
theorem putEvents_put_map (urls : List String) (g : String → Feed × FeedFormat) :
    putEvents (urls.map fun d => .putObject d (g d)) =
      urls.map fun d => .putObject d (g d) := by
  induction urls with
  | nil => rfl
  | cons d ds ih => simp [putEvents, List.filter]

theorem putEvents_prefix (u : String) (r : String) (fmt : FeedFormat) :
    putEvents [Event.fetchSource u, Event.fetchOld r fmt] = [] := rfl

/-- The reference-destination loop picks the first URL ending in `".json"`,
or the supplied default when none does. -/
theorem refDest_eq_find (dflt : String) (l : List String) :
    refDest dflt l = (l.find? fun u => u.endsWith ".json").getD dflt := by
  induction l with
  | nil => rfl
  | cons d ds ih =>
      by_cases h : d.endsWith ".json" = true
      · simp [refDest, List.find?, h]
      · simp at h
        simp [refDest, List.find?, h, ih]

/-! ## Claims -/

/-- C8: for an empty input sequence, `translate_batch` returns an empty
result immediately and without any network call: the state is returned
unchanged, so in particular no authentication call and no translation call
is performed. -/
theorem claim8_empty_texts_no_network (env : Env) (now : Int) (s : St) (lang : String) :
    translate_batch env now s [] lang = (.ok [], s) ∧
    (translate_batch env now s [] lang).2.authCalls = s.authCalls ∧
    (translate_batch env now s [] lang).2.transCalls = s.transCalls := by
  refine ⟨rfl, rfl, rfl⟩

/-- C9: `run_translation` raises a `ValueError` before any side effect
(the event list is empty: no fetch, no translation, no publish) when the
destination list is empty or when the source URL equals a destination. -/
theorem claim9_config_errors (env : RunEnv) (s_url : String) (dest_urls : List String) :
    (dest_urls = [] →
      run_translation env s_url dest_urls = (.error "No destination URLs provided", [])) ∧
    (s_url ∈ dest_urls →
      run_translation env s_url dest_urls =
        (.error ("Source URL matches one of the destinations: " ++ s_url), [])) := by
  constructor
  · rintro rfl
    rfl
  · intro hmem
    cases dest_urls with
    | nil => simp at hmem
    | cons d0 rest => simp [run_translation, hmem]

theorem claim9_config_errors_witness :
    ((["s3://b/a.pb"] : List String) = [] →
      run_translation ⟨⟨0, [], []⟩, none, .raised⟩ "s3://b/a.pb" ["s3://b/a.pb"] =
        (.error "No destination URLs provided", [])) ∧
    ("s3://b/a.pb" ∈ (["s3://b/a.pb"] : List String) →
      run_translation ⟨⟨0, [], []⟩, none, .raised⟩ "s3://b/a.pb" ["s3://b/a.pb"] =
        (.error ("Source URL matches one of the destinations: " ++ "s3://b/a.pb"), [])) :=
  claim9_config_errors ⟨⟨0, [], []⟩, none, .raised⟩ "s3://b/a.pb" ["s3://b/a.pb"]

/-- C10: the reference destination used to fetch the previous feed is the
first destination URL ending in `".json"` when one exists, and otherwise
the first destination URL; its format is `json` exactly when it ends in
`".json"`.  The reference fetch of `run_translation` uses exactly this URL
and format. -/
theorem claim10_reference_destination (d0 : String) (ds : List String) :
    refDest d0 (d0 :: ds) = ((d0 :: ds).find? fun u => u.endsWith ".json").getD d0 ∧
    (fmtOf (refDest d0 (d0 :: ds)) = .json ↔
      (refDest d0 (d0 :: ds)).endsWith ".json" = true) ∧
    (∀ (env : RunEnv) (s_url : String), s_url ∉ d0 :: ds →
      Event.fetchOld (refDest d0 (d0 :: ds)) (fmtOf (refDest d0 (d0 :: ds))) ∈
        (run_translation env s_url (d0 :: ds)).2) := by
  refine ⟨refDest_eq_find d0 (d0 :: ds), ?_, ?_⟩
  · unfold fmtOf
    by_cases h : (refDest d0 (d0 :: ds)).endsWith ".json" = true
    · simp [h]
    · simp [h]
  · intro env s_url hsrc
    simp only [run_translation, if_neg hsrc]
    by_cases h : should_upload env.oldFeed (process_feed env.sourceFeed env.phase).1
        (some (process_feed env.sourceFeed env.phase).2) = true
    · simp [h]
    · simp [h]

theorem claim10_reference_destination_witness :
    ("b.json" ∉ ["a.pb", "b.json"] → False) ∨
    (Event.fetchOld (refDest "a.pb" ["a.pb", "b.json"]) (fmtOf (refDest "a.pb" ["a.pb", "b.json"]))
      ∈ (run_translation ⟨⟨0, [], []⟩, none, .raised⟩ "s3://src/x.pb" ["a.pb", "b.json"]).2) :=
  .inr ((claim10_reference_destination "a.pb" ["b.json"]).2.2
    ⟨⟨0, [], []⟩, none, .raised⟩ "s3://src/x.pb" (by decide))

/-- C7: the job/batch multipart upload sends the full target-locale list in
`localeIdsToAuthorize[]` as exactly one field instance holding a single
comma-joined value, never one field instance per locale; for
`["es", "fr", "pt"]` that value is `"es,fr,pt"`. -/
theorem claim7_locale_ids_single_field (texts target_langs : List String) :
    ((uploadFileToBatchFields texts target_langs).filter
        fun f => f.1 == "localeIdsToAuthorize[]").length = 1 ∧
    (uploadFileToBatchFields texts target_langs).lookup "localeIdsToAuthorize[]" =
      some (String.intercalate "," target_langs) ∧
    String.intercalate "," ["es", "fr", "pt"] = "es,fr,pt" := by
  refine ⟨?_, ?_, by decide⟩
  · simp [uploadFileToBatchFields, List.filter]
  · simp [uploadFileToBatchFields, List.lookup]

/-- C6: the publish decision.  With an old feed present: when its header
timestamp differs from the new feed's, the run publishes to every
destination unconditionally (even with no new translations); when the
timestamps are equal and zero strings were translated, the run skips
publishing. -/
theorem claim6_publish_decision (env : RunEnv) (s_url d0 : String) (rest : List String)
    (old : Feed) (hsrc : s_url ∉ d0 :: rest) (hold : env.oldFeed = some old) :
    (old.headerTimestamp ≠ env.sourceFeed.headerTimestamp →
      (run_translation env s_url (d0 :: rest)).1 = .ok () ∧
      putEvents (run_translation env s_url (d0 :: rest)).2 =
        (d0 :: rest).map fun d =>
          .putObject d (serialize (process_feed env.sourceFeed env.phase).1 (fmtOf d))) ∧
    (old.headerTimestamp = env.sourceFeed.headerTimestamp →
      (process_feed env.sourceFeed env.phase).2.strings_translated = 0 →
      (run_translation env s_url (d0 :: rest)).1 = .ok () ∧
      putEvents (run_translation env s_url (d0 :: rest)).2 = []) := by
  have hts := process_feed_headerTimestamp env.sourceFeed env.phase
  have hsrc' : ¬(s_url = d0 ∨ s_url ∈ rest) := by simpa using hsrc
  constructor
  · intro hne
    have hup : should_upload env.oldFeed (process_feed env.sourceFeed env.phase).1
        (some (process_feed env.sourceFeed env.phase).2) = true := by
      simp [should_upload, hold, hts, hne]
    constructor
    · simp [run_translation, if_neg hsrc, hsrc', hup]
    · simp only [run_translation, if_neg hsrc, hup, if_true]
      rw [putEvents_append, putEvents_prefix,
        putEvents_put_map (d0 :: rest)
          (fun d => serialize (process_feed env.sourceFeed env.phase).1 (fmtOf d))]
      simp
  · intro heq hzero
    have hup : should_upload env.oldFeed (process_feed env.sourceFeed env.phase).1
        (some (process_feed env.sourceFeed env.phase).2) = false := by
      simp [should_upload, hold, hts, heq, hzero]
    constructor
    · simp [run_translation, if_neg hsrc, hsrc', hup]
    · simp [run_translation, if_neg hsrc, hsrc', hup, putEvents_prefix]

theorem claim6_publish_decision_witness :
    ((99 : Nat) ≠ 100 →
      (run_translation ⟨⟨100, ["Hi"], []⟩, some ⟨99, ["Hi"], []⟩, .completed []⟩
          "s3://src/a.pb" ["s3://dest/a.pb"]).1 = .ok () ∧
      putEvents (run_translation ⟨⟨100, ["Hi"], []⟩, some ⟨99, ["Hi"], []⟩, .completed []⟩
          "s3://src/a.pb" ["s3://dest/a.pb"]).2 =
        (["s3://dest/a.pb"] : List String).map fun d =>
          .putObject d (serialize
            (process_feed (⟨100, ["Hi"], []⟩ : Feed) (.completed [])).1 (fmtOf d))) ∧
    ((99 : Nat) = 100 →
      (process_feed (⟨100, ["Hi"], []⟩ : Feed) (.completed [])).2.strings_translated = 0 →
      (run_translation ⟨⟨100, ["Hi"], []⟩, some ⟨99, ["Hi"], []⟩, .completed []⟩
          "s3://src/a.pb" ["s3://dest/a.pb"]).1 = .ok () ∧
      putEvents (run_translation ⟨⟨100, ["Hi"], []⟩, some ⟨99, ["Hi"], []⟩, .completed []⟩
          "s3://src/a.pb" ["s3://dest/a.pb"]).2 = []) :=
  claim6_publish_decision ⟨⟨100, ["Hi"], []⟩, some ⟨99, ["Hi"], []⟩, .completed []⟩
    "s3://src/a.pb" "s3://dest/a.pb" [] ⟨99, ["Hi"], []⟩ (by decide) rfl

/-- C1 (amended): if the translation phase raises or times out, the run
still succeeds, and the feed is published with its original
source-language text exactly once per destination URL — provided the
publish decision holds (no previous feed, or a changed header timestamp);
when a previous feed exists with an equal header timestamp, the degraded
run skips publishing (and still does not fail). -/
theorem claim1_degradation (env : RunEnv) (s_url d0 : String) (rest : List String)
    (hphase : env.phase = .raised ∨ env.phase = .timedOut)
    (hsrc : s_url ∉ d0 :: rest) :
    (run_translation env s_url (d0 :: rest)).1 = .ok () ∧
    (env.oldFeed = none →
      putEvents (run_translation env s_url (d0 :: rest)).2 =
        (d0 :: rest).map fun d => .putObject d (serialize env.sourceFeed (fmtOf d))) ∧
    (∀ old : Feed, env.oldFeed = some old →
      old.headerTimestamp ≠ env.sourceFeed.headerTimestamp →
      putEvents (run_translation env s_url (d0 :: rest)).2 =
        (d0 :: rest).map fun d => .putObject d (serialize env.sourceFeed (fmtOf d))) ∧
    (∀ old : Feed, env.oldFeed = some old →
      old.headerTimestamp = env.sourceFeed.headerTimestamp →
      putEvents (run_translation env s_url (d0 :: rest)).2 = []) := by
  have hfst : (process_feed env.sourceFeed env.phase).1 = env.sourceFeed := by
    rcases hphase with h | h <;> simp [h, process_feed]
  have hzero : (process_feed env.sourceFeed env.phase).2.strings_translated = 0 := by
    rcases hphase with h | h <;> simp [h, process_feed]
  have hsrc' : ¬(s_url = d0 ∨ s_url ∈ rest) := by simpa using hsrc
  refine ⟨?_, ?_, ?_, ?_⟩
  · by_cases hup : should_upload env.oldFeed (process_feed env.sourceFeed env.phase).1
        (some (process_feed env.sourceFeed env.phase).2) = true
    · simp [run_translation, if_neg hsrc, hsrc', hup]
    · simp [run_translation, if_neg hsrc, hsrc', hup]
  · intro hnone
    have hup : should_upload env.oldFeed (process_feed env.sourceFeed env.phase).1
        (some (process_feed env.sourceFeed env.phase).2) = true := by
      simp [should_upload, hnone]
    simp only [run_translation, if_neg hsrc, hup, if_true]
    rw [putEvents_append, putEvents_prefix,
      putEvents_put_map (d0 :: rest)
        (fun d => serialize (process_feed env.sourceFeed env.phase).1 (fmtOf d))]
    simp [hfst]
  · intro old hold hne
    have hup : should_upload env.oldFeed (process_feed env.sourceFeed env.phase).1
        (some (process_feed env.sourceFeed env.phase).2) = true := by
      simp [should_upload, hold, process_feed_headerTimestamp, hne]
    simp only [run_translation, if_neg hsrc, hup, if_true]
    rw [putEvents_append, putEvents_prefix,
      putEvents_put_map (d0 :: rest)
        (fun d => serialize (process_feed env.sourceFeed env.phase).1 (fmtOf d))]
    simp [hfst]
  · intro old hold heq
    have hup : should_upload env.oldFeed (process_feed env.sourceFeed env.phase).1
        (some (process_feed env.sourceFeed env.phase).2) = false := by
      simp [should_upload, hold, process_feed_headerTimestamp, heq, hzero]
    simp [run_translation, if_neg hsrc, hsrc', hup, putEvents_prefix]

theorem claim1_degradation_witness :
    (run_translation ⟨⟨100, ["Hello"], []⟩, none, .raised⟩
        "s3://src/a.pb" ["s3://dest/a.pb"]).1 = .ok () ∧
    ((none : Option Feed) = none →
      putEvents (run_translation ⟨⟨100, ["Hello"], []⟩, none, .raised⟩
          "s3://src/a.pb" ["s3://dest/a.pb"]).2 =
        (["s3://dest/a.pb"] : List String).map fun d =>
          .putObject d (serialize (⟨100, ["Hello"], []⟩ : Feed) (fmtOf d))) ∧
    (∀ old : Feed, (none : Option Feed) = some old →
      old.headerTimestamp ≠ (100 : Nat) →
      putEvents (run_translation ⟨⟨100, ["Hello"], []⟩, none, .raised⟩
          "s3://src/a.pb" ["s3://dest/a.pb"]).2 =
        (["s3://dest/a.pb"] : List String).map fun d =>
          .putObject d (serialize (⟨100, ["Hello"], []⟩ : Feed) (fmtOf d))) ∧
    (∀ old : Feed, (none : Option Feed) = some old →
      old.headerTimestamp = (100 : Nat) →
      putEvents (run_translation ⟨⟨100, ["Hello"], []⟩, none, .raised⟩
          "s3://src/a.pb" ["s3://dest/a.pb"]).2 = []) :=
  claim1_degradation ⟨⟨100, ["Hello"], []⟩, none, .raised⟩
    "s3://src/a.pb" "s3://dest/a.pb" [] (.inl rfl) (by decide)

/-- C1 as stated is false on the code: with a previous feed whose header
timestamp equals the new feed's, a run whose translation phase raises does
**not** publish — `run_translation` succeeds but performs zero
`s3.put_object` calls for its one destination URL, not exactly one per
destination. -/
theorem claim1_counterexample :
    (run_translation ⟨⟨100, ["Hello"], []⟩, some ⟨100, ["Hello"], []⟩, .raised⟩
        "s3://src/a.pb" ["s3://dest/a.pb"]).1 = .ok () ∧
    putEvents (run_translation ⟨⟨100, ["Hello"], []⟩, some ⟨100, ["Hello"], []⟩, .raised⟩
        "s3://src/a.pb" ["s3://dest/a.pb"]).2 = [] ∧
    (["s3://dest/a.pb"] : List String).length = 1 := by
  exact ⟨rfl, rfl, rfl⟩

/-- Example provider: authentication always succeeds with a one-hour
token; every translation responds with the single item key 0 → "Hola". -/
def envOk : Env where
  authResp := fun _ => .ok ⟨"test-token", 3600⟩
  transResp := fun _ => .ok [⟨0, "Hola"⟩]

/-- Example provider whose first translation call fails with HTTP 401 and
whose later calls succeed. -/
def env401 : Env where
  authResp := fun _ => .ok ⟨"new-token", 3600⟩
  transResp := fun i => if i = 0 then .error (.http 401) else .ok [⟨0, "Retry"⟩]

/-- Example provider whose translation calls always fail with HTTP 500. -/
def env500 : Env where
  authResp := fun _ => .ok ⟨"test-token", 3600⟩
  transResp := fun _ => .error (.http 500)

/-- Example provider whose translation calls always fail with HTTP 401. -/
def env401rep : Env where
  authResp := fun _ => .ok ⟨"new-token", 3600⟩
  transResp := fun _ => .error (.http 401)

/-- C5: `_get_token` returns the cached token whenever the current time is
before the stored expiry; otherwise it performs a fresh authentication
call and stores the new token with expiry `now + expiresIn - 60`; and two
sequential successful `translate_batch` calls within the validity window
perform exactly one authentication call. -/
theorem claim5_token_cache (env : Env) (s : St) (d : AuthData)
    (now₁ now₂ : Int) (texts₁ texts₂ : List String) (lang₁ lang₂ : String)
    (items₁ items₂ : List Item) :
    (∀ t : String, s.token = some t → t ≠ "" → now₁ < s.tokenExpiry →
      get_token env now₁ s = (.ok t, s)) ∧
    ((s.token = none ∨ s.tokenExpiry ≤ now₁) → env.authResp s.authCalls = .ok d →
      get_token env now₁ s =
        (.ok d.accessToken,
         { s with token := some d.accessToken,
                  tokenExpiry := now₁ + d.expiresIn - 60,
                  authCalls := s.authCalls + 1 })) ∧
    (s.token = none → env.authResp s.authCalls = .ok d → d.accessToken ≠ "" →
      env.transResp s.transCalls = .ok items₁ →
      env.transResp (s.transCalls + 1) = .ok items₂ →
      texts₁ ≠ [] → texts₂ ≠ [] →
      now₂ < now₁ + d.expiresIn - 60 →
      (translate_batch env now₁ s texts₁ lang₁).1 =
          .ok ((sortItems items₁).map Item.translationText) ∧
      (translate_batch env now₂
          (translate_batch env now₁ s texts₁ lang₁).2 texts₂ lang₂).1 =
          .ok ((sortItems items₂).map Item.translationText) ∧
      ((translate_batch env now₂
          (translate_batch env now₁ s texts₁ lang₁).2 texts₂ lang₂).2).authCalls =
        s.authCalls + 1) := by
  refine ⟨?_, ?_, ?_⟩
  · intro t htok ht hnow
    simp [get_token, htok, ht, hnow]
  · rintro (htok | hexp) hauth
    · simp [get_token, htok, fetchToken, hauth]
    · have hnl : ¬ now₁ < s.tokenExpiry := not_lt.mpr hexp
      cases htok : s.token with
      | none => simp [get_token, htok, fetchToken, hauth]
      | some t => simp [get_token, htok, hnl, fetchToken, hauth]
  · intro htok hauth hd htr1 htr2 hne1 hne2 hwin
    obtain ⟨a₁, as₁, rfl⟩ := List.exists_cons_of_ne_nil hne1
    obtain ⟨a₂, as₂, rfl⟩ := List.exists_cons_of_ne_nil hne2
    have h1 : translate_batch env now₁ s (a₁ :: as₁) lang₁ =
        (.ok ((sortItems items₁).map Item.translationText),
         { s with token := some d.accessToken,
                  tokenExpiry := now₁ + d.expiresIn - 60,
                  authCalls := s.authCalls + 1,
                  transCalls := s.transCalls + 1,
                  requests := s.requests ++ [mtItems (a₁ :: as₁)] }) := by
      simp [translate_batch, do_translate_batch, get_token, htok, fetchToken, hauth, htr1]
    rw [h1]
    have h2 : translate_batch env now₂
        ({ s with token := some d.accessToken,
                  tokenExpiry := now₁ + d.expiresIn - 60,
                  authCalls := s.authCalls + 1,
                  transCalls := s.transCalls + 1,
                  requests := s.requests ++ [mtItems (a₁ :: as₁)] } : St) (a₂ :: as₂) lang₂ =
        (.ok ((sortItems items₂).map Item.translationText),
         { s with token := some d.accessToken,
                  tokenExpiry := now₁ + d.expiresIn - 60,
                  authCalls := s.authCalls + 1,
                  transCalls := s.transCalls + 2,
                  requests := s.requests ++ [mtItems (a₁ :: as₁), mtItems (a₂ :: as₂)] }) := by
      simp [translate_batch, do_translate_batch, get_token, hd, hwin, htr2]
    rw [h2]
    exact ⟨rfl, rfl, rfl⟩

theorem claim5_token_cache_witness :
    get_token envOk 0 ⟨some "tok", 10, 0, 0, []⟩ = (.ok "tok", ⟨some "tok", 10, 0, 0, []⟩) ∧
    get_token envOk 0 St.init =
      (.ok "test-token", ⟨some "test-token", 0 + 3600 - 60, 0 + 1, 0, []⟩) ∧
    (translate_batch envOk 100
        (translate_batch envOk 0 St.init ["a"] "es").2 ["b"] "fr").2.authCalls =
      St.init.authCalls + 1 :=
  ⟨(claim5_token_cache envOk ⟨some "tok", 10, 0, 0, []⟩ ⟨"test-token", 3600⟩ 0 100
      ["a"] ["b"] "es" "fr" [⟨0, "Hola"⟩] [⟨0, "Hola"⟩]).1 "tok" rfl (by decide) (by decide),
   (claim5_token_cache envOk St.init ⟨"test-token", 3600⟩ 0 100
      ["a"] ["b"] "es" "fr" [⟨0, "Hola"⟩] [⟨0, "Hola"⟩]).2.1 (Or.inl rfl) rfl,
   ((claim5_token_cache envOk St.init ⟨"test-token", 3600⟩ 0 100
      ["a"] ["b"] "es" "fr" [⟨0, "Hola"⟩] [⟨0, "Hola"⟩]).2.2 rfl rfl (by decide) rfl rfl
      (by decide) (by decide) (by decide)).2.2⟩

/-- C4: `translate_batch` wraps one call site with a
single-retry-on-authorization-failure policy.  With a valid cached token:
a non-401 failure propagates immediately (one translation call, no
authentication call, no retry); an HTTP 401 failure invalidates the token
and retries exactly once with a freshly fetched token (one additional
authentication call, one retried translation call); a 401 on the retry
propagates as fatal. -/
theorem claim4_auth_retry (env : Env) (now : Int) (s : St) (t lang : String)
    (texts : List String) (d : AuthData)
    (htok : s.token = some t) (ht : t ≠ "") (hnow : now < s.tokenExpiry)
    (hne : texts ≠ []) :
    (∀ e : PyErr, env.transResp s.transCalls = .error e → e ≠ .http 401 →
      (translate_batch env now s texts lang).1 = .error e ∧
      (translate_batch env now s texts lang).2.transCalls = s.transCalls + 1 ∧
      (translate_batch env now s texts lang).2.authCalls = s.authCalls) ∧
    (env.transResp s.transCalls = .error (.http 401) →
      env.authResp s.authCalls = .ok d →
      (∀ items, env.transResp (s.transCalls + 1) = .ok items →
        (translate_batch env now s texts lang).1 =
          .ok ((sortItems items).map Item.translationText) ∧
        (translate_batch env now s texts lang).2.authCalls = s.authCalls + 1 ∧
        (translate_batch env now s texts lang).2.transCalls = s.transCalls + 2 ∧
        (translate_batch env now s texts lang).2.token = some d.accessToken) ∧
      (env.transResp (s.transCalls + 1) = .error (.http 401) →
        (translate_batch env now s texts lang).1 = .error (.http 401) ∧
        (translate_batch env now s texts lang).2.transCalls = s.transCalls + 2)) := by
  obtain ⟨a, as, rfl⟩ := List.exists_cons_of_ne_nil hne
  constructor
  · intro e htr hne401
    have h1 : translate_batch env now s (a :: as) lang =
        (.error e,
         { s with transCalls := s.transCalls + 1,
                  requests := s.requests ++ [mtItems (a :: as)] }) := by
      simp [translate_batch, do_translate_batch, get_token, htok, ht, hnow, htr, hne401]
    rw [h1]
    exact ⟨rfl, rfl, rfl⟩
  · intro htr1 hauth
    have h1 : translate_batch env now s (a :: as) lang =
        do_translate_batch env now
          ({ s with token := none,
                    transCalls := s.transCalls + 1,
                    requests := s.requests ++ [mtItems (a :: as)] } : St) (a :: as) lang := by
      simp [translate_batch, do_translate_batch, get_token, htok, ht, hnow, htr1]
    constructor
    · intro items htr2
      have h2 : do_translate_batch env now
          ({ s with token := none,
                    transCalls := s.transCalls + 1,
                    requests := s.requests ++ [mtItems (a :: as)] } : St) (a :: as) lang =
          (.ok ((sortItems items).map Item.translationText),
           { s with token := some d.accessToken,
                    tokenExpiry := now + d.expiresIn - 60,
                    authCalls := s.authCalls + 1,
                    transCalls := s.transCalls + 2,
                    requests := s.requests ++ [mtItems (a :: as), mtItems (a :: as)] }) := by
        simp [do_translate_batch, get_token, fetchToken, hauth, htr2]
      rw [h1, h2]
      exact ⟨rfl, rfl, rfl, rfl⟩
    · intro htr2
      have h2 : do_translate_batch env now
          ({ s with token := none,
                    transCalls := s.transCalls + 1,
                    requests := s.requests ++ [mtItems (a :: as)] } : St) (a :: as) lang =
          (.error (.http 401),
           { s with token := some d.accessToken,
                    tokenExpiry := now + d.expiresIn - 60,
                    authCalls := s.authCalls + 1,
                    transCalls := s.transCalls + 2,
                    requests := s.requests ++ [mtItems (a :: as), mtItems (a :: as)] }) := by
        simp [do_translate_batch, get_token, fetchToken, hauth, htr2]
      rw [h1, h2]
      exact ⟨rfl, rfl⟩

theorem claim4_auth_retry_witness :
    ((translate_batch env500 0 ⟨some "stale", 999, 0, 0, []⟩ ["Hello"] "es").1 =
        .error (.http 500) ∧
      (translate_batch env500 0 ⟨some "stale", 999, 0, 0, []⟩ ["Hello"] "es").2.transCalls =
        0 + 1 ∧
      (translate_batch env500 0 ⟨some "stale", 999, 0, 0, []⟩ ["Hello"] "es").2.authCalls =
        0) ∧
    ((translate_batch env401 0 ⟨some "stale", 999, 0, 0, []⟩ ["Hello"] "es").1 =
        .ok ["Retry"] ∧
      (translate_batch env401 0 ⟨some "stale", 999, 0, 0, []⟩ ["Hello"] "es").2.authCalls =
        0 + 1 ∧
      (translate_batch env401 0 ⟨some "stale", 999, 0, 0, []⟩ ["Hello"] "es").2.transCalls =
        0 + 2 ∧
      (translate_batch env401 0 ⟨some "stale", 999, 0, 0, []⟩ ["Hello"] "es").2.token =
        some "new-token") ∧
    ((translate_batch env401rep 0 ⟨some "stale", 999, 0, 0, []⟩ ["Hello"] "es").1 =
        .error (.http 401) ∧
      (translate_batch env401rep 0 ⟨some "stale", 999, 0, 0, []⟩ ["Hello"] "es").2.transCalls =
        0 + 2) :=
  ⟨(claim4_auth_retry env500 0 ⟨some "stale", 999, 0, 0, []⟩ "stale" "es" ["Hello"]
      ⟨"test-token", 3600⟩ rfl (by decide) (by decide) (by decide)).1
      (.http 500) rfl (by decide),
   ((claim4_auth_retry env401 0 ⟨some "stale", 999, 0, 0, []⟩ "stale" "es" ["Hello"]
      ⟨"new-token", 3600⟩ rfl (by decide) (by decide) (by decide)).2 rfl rfl).1
      [⟨0, "Retry"⟩] rfl,
   ((claim4_auth_retry env401rep 0 ⟨some "stale", 999, 0, 0, []⟩ "stale" "es" ["Hello"]
      ⟨"new-token", 3600⟩ rfl (by decide) (by decide) (by decide)).2 rfl rfl).2 rfl⟩

/-- A successful `_do_translate_batch` returns one translation per
response item; under a provider honouring the wire contract (one item per
request item) that is one translation per input text. -/
theorem do_translate_batch_ok_length (env : Env) (now : Int) (s : St)
    (texts : List String) (lang : String) (r : List String) (s' : St)
    (hWF : ∀ j items, env.transResp j = .ok items → items.length = texts.length)
    (h : do_translate_batch env now s texts lang = (.ok r, s')) :
    r.length = texts.length := by
  unfold do_translate_batch at h
  rcases hg : get_token env now s with ⟨res, s₁⟩
  rw [hg] at h
  cases res with
  | error e => simp at h
  | ok tok =>
      dsimp only at h
      rcases ht : env.transResp s₁.transCalls with e | items
      · rw [ht] at h
        simp at h
      · rw [ht] at h
        simp only [Prod.mk.injEq, Except.ok.injEq] at h
        obtain ⟨hr, _⟩ := h
        subst hr
        rw [List.length_map, sortItems, (List.perm_insertionSort _ items).length_eq]
        exact hWF _ _ ht

/-- A successful `translate_batch` (directly or after the 401 retry)
returns exactly one translation per input text. -/
theorem translate_batch_ok_length (env : Env) (now : Int) (s : St)
    (texts : List String) (lang : String) (r : List String) (s' : St)
    (hWF : ∀ j items, env.transResp j = .ok items → items.length = texts.length)
    (h : translate_batch env now s texts lang = (.ok r, s')) :
    r.length = texts.length := by
  unfold translate_batch at h
  by_cases he : texts.isEmpty
  · rw [if_pos he] at h
    simp only [Prod.mk.injEq, Except.ok.injEq] at h
    obtain ⟨hr, _⟩ := h
    subst hr
    rw [List.isEmpty_iff] at he
    simp [he]
  · rw [if_neg he] at h
    rcases hd : do_translate_batch env now s texts lang with ⟨res, s₁⟩
    rw [hd] at h
    cases res with
    | ok r₀ =>
        dsimp only at h
        simp only [Prod.mk.injEq, Except.ok.injEq] at h
        obtain ⟨hr, _⟩ := h
        subst hr
        exact do_translate_batch_ok_length env now s texts lang _ _ hWF hd
    | error e =>
        dsimp only at h
        by_cases h401 : e = .http 401
        · rw [if_pos h401] at h
          exact do_translate_batch_ok_length env now _ texts lang _ _ hWF h
        · rw [if_neg h401] at h
          simp at h

/-- C2: under a provider honouring the wire contract (each success
response carries one item per input text), every language present in the
multi-language result carries exactly `texts.length` translations; a
failed language is entirely absent by construction of the mapping. -/
theorem claim2_result_lengths (env : Env) (now : Int) (texts : List String)
    (langs : List String) (s : St)
    (hWF : ∀ j items, env.transResp j = .ok items → items.length = texts.length) :
    ∀ lang r, (lang, r) ∈ (translateBatchAll env now texts langs s).1 →
      r.length = texts.length := by
  induction langs generalizing s with
  | nil =>
      intro lang r h
      simp [translateBatchAll] at h
  | cons l rest ih =>
      intro lang r h
      rcases ht : translate_batch env now s texts l with ⟨res, s₁⟩
      cases res with
      | ok r₀ =>
          rw [translateBatchAll, ht] at h
          rcases List.mem_cons.mp h with heq | hmem
          · obtain ⟨-, rfl⟩ := Prod.mk.injEq .. ▸ heq
            exact translate_batch_ok_length env now s texts l r s₁ hWF ht
          · exact ih s₁ lang r hmem
      | error e =>
          rw [translateBatchAll, ht] at h
          exact ih s₁ lang r h

theorem claim2_result_lengths_witness :
    ("es", ["Hola"]) ∈ (translateBatchAll envOk 0 ["Hello"] ["es"] St.init).1 ∧
    (["Hola"] : List String).length = (["Hello"] : List String).length :=
  ⟨by decide,
   claim2_result_lengths envOk 0 ["Hello"] ["es"] St.init
     (fun j items h => by
       simp only [envOk, Except.ok.injEq] at h
       subst h
       rfl)
     "es" ["Hola"] (by decide)⟩

/-- Sorting by numeric key recovers the canonical index order: if the
response items are a permutation of the items keyed `0, ..., n-1`, sorting
by key yields exactly the canonical list. -/
theorem sortItems_of_perm_range (n : Nat) (f : Nat → String) (items : List Item)
    (hperm : items.Perm ((List.range n).map fun i => Item.mk i (f i))) :
    sortItems items = (List.range n).map fun i => Item.mk i (f i) := by
  haveI : IsTotal Item fun a b => a.key ≤ b.key := ⟨fun a b => Nat.le_total a.key b.key⟩
  haveI : IsTrans Item fun a b => a.key ≤ b.key := ⟨fun a b c => Nat.le_trans⟩
  haveI : IsAntisymm Item fun a b => a.key < b.key :=
    ⟨fun a b h1 h2 => absurd (h1.trans h2) (lt_irrefl _)⟩
  have hperm2 : (sortItems items).Perm ((List.range n).map fun i => Item.mk i (f i)) :=
    (List.perm_insertionSort _ items).trans hperm
  have hkeysnd : ((sortItems items).map Item.key).Nodup := by
    have hmp : ((sortItems items).map Item.key).Perm
        (((List.range n).map fun i => Item.mk i (f i)).map Item.key) := hperm2.map _
    have hcanon : ((List.range n).map fun i => Item.mk i (f i)).map Item.key =
        List.range n := by
      rw [List.map_map]
      have hid : (Item.key ∘ fun i => Item.mk i (f i)) = fun i => i := rfl
      rw [hid]
      exact List.map_id' (List.range n)
    rw [hcanon] at hmp
    exact hmp.nodup_iff.mpr (List.nodup_range n)
  have hsorted : (sortItems items).Pairwise fun a b => a.key ≤ b.key :=
    List.sorted_insertionSort _ items
  have hne : (sortItems items).Pairwise fun a b => a.key ≠ b.key :=
    List.pairwise_map.mp hkeysnd
  have hstrict : (sortItems items).Pairwise fun a b => a.key < b.key :=
    (hsorted.and hne).imp fun h => lt_of_le_of_ne h.1 h.2
  have hcs : (((List.range n).map fun i => Item.mk i (f i)).Pairwise
      fun a b => a.key < b.key) := by
    rw [List.pairwise_map]
    exact List.pairwise_lt_range n
  exact List.eq_of_perm_of_sorted hperm2 hstrict hcs

/-- C3: the synchronous-router strategy keys each sent text by its
stringified sequence index (the logged payload maps position `i` to
`(toString i, texts[i])`), and sorts the response items by numeric key, so
that whenever the provider returns the indexed translations in any order,
output position `i` holds the translation keyed `i` — the translation of
`texts[i]`. -/
theorem claim3_order_preservation (env : Env) (now : Int) (s : St)
    (texts : List String) (lang t : String) (f : Nat → String) (items : List Item)
    (htok : s.token = some t) (ht : t ≠ "") (hnow : now < s.tokenExpiry)
    (hresp : env.transResp s.transCalls = .ok items)
    (hperm : items.Perm ((List.range texts.length).map fun i => Item.mk i (f i))) :
    (do_translate_batch env now s texts lang).1 =
      .ok ((List.range texts.length).map f) ∧
    (do_translate_batch env now s texts lang).2.requests =
      s.requests ++ [mtItems texts] ∧
    (∀ i : Nat, (mtItems texts)[i]? = (texts[i]?).map fun x => (toString i, x)) := by
  have h1 : do_translate_batch env now s texts lang =
      (.ok ((sortItems items).map Item.translationText),
       { s with transCalls := s.transCalls + 1,
                requests := s.requests ++ [mtItems texts] }) := by
    simp [do_translate_batch, get_token, htok, ht, hnow, hresp]
  rw [h1]
  refine ⟨?_, rfl, ?_⟩
  · rw [sortItems_of_perm_range texts.length f items hperm]
    simp [List.map_map, Function.comp]
  · intro i
    simp only [mtItems, List.getElem?_map, List.getElem?_enum]
    cases texts[i]? <;> rfl

def envOutOfOrder : Env where
  authResp := fun _ => .ok ⟨"test-token", 3600⟩
  transResp := fun _ => .ok [⟨1, "B"⟩, ⟨0, "A"⟩]

theorem claim3_order_preservation_witness :
    (do_translate_batch envOutOfOrder 0 ⟨some "tok", 999, 0, 0, []⟩ ["x", "y"] "es").1 =
      .ok ((List.range (["x", "y"] : List String).length).map
        fun i => if i = 0 then "A" else "B") :=
  (claim3_order_preservation envOutOfOrder 0 ⟨some "tok", 999, 0, 0, []⟩ ["x", "y"] "es"
    "tok" (fun i => if i = 0 then "A" else "B") [⟨1, "B"⟩, ⟨0, "A"⟩]
    rfl (by decide) (by decide) rfl (by decide)).1
